import Mathlib

/-
Verification of the FitTrack ML training pipeline
(`src/ml/train_models.py`).

The pipeline is embedded shallowly over exact rationals: pandas
dataframes become association lists of named columns, missing cells are
`Option ℚ`, the `StandardScaler` becomes per-column mean/variance
computations, the external splitter and ensemble are modelled as
deterministic functions of an explicit seed, and the side-effecting
pieces (file persistence, the command surface) become explicit traces
and result values.
-/

namespace FitTrack

/-- Arithmetic mean of a list of rationals (0 for the empty list).
Embeds the per-column mean learned by `StandardScaler` (`mean_`). -/
def colMean (xs : List ℚ) : ℚ := xs.sum / xs.length

/-- Population variance (ddof = 0) of a list of rationals, as learned by
`StandardScaler` (`var_`). -/
def colVar (xs : List ℚ) : ℚ := colMean (xs.map (fun x => (x - colMean xs) ^ 2))

/-- sklearn `_handle_zeros_in_scale`: a zero scale (constant column) is
replaced by 1 so the transform never divides by zero. -/
def handleZeros (s : ℚ) : ℚ := if s = 0 then 1 else s

/-- Standardize one column with learned mean `m` and standard deviation `s`
(`StandardScaler.transform`): `scaled = (x - mean) / std`, with a zero std
replaced by 1. Because the true std is irrational in general, theorems pass
`s` together with the hypothesis `s ^ 2 = colVar xs`, `0 ≤ s`. -/
def transformCol (m s : ℚ) (xs : List ℚ) : List ℚ :=
  xs.map (fun x => (x - m) / handleZeros s)

/-- Insertion of an element into a sorted list (helper for `sortLe`). -/
def insertLe {α : Type} [LE α] [DecidableRel ((· ≤ ·) : α → α → Prop)] (x : α) :
    List α → List α
  | [] => [x]
  | y :: ys => if x ≤ y then x :: y :: ys else y :: insertLe x ys

/-- Insertion sort, the model of the sorting performed inside the external
numeric library (pandas median, pandas one-hot column ordering). -/
def sortLe {α : Type} [LE α] [DecidableRel ((· ≤ ·) : α → α → Prop)]
    (xs : List α) : List α :=
  xs.foldr insertLe []

/-- Median of a list of rationals, as computed by pandas `.median()`:
the middle element of the sorted values, or the average of the two middle
elements for an even count. Returns 0 for the empty list (pandas yields NaN
there; that all-missing corner is excluded by hypothesis wherever this
definition is used). -/
def medianQ (xs : List ℚ) : ℚ :=
  if (sortLe xs).length % 2 = 1 then (sortLe xs).getD ((sortLe xs).length / 2) 0
  else ((sortLe xs).getD ((sortLe xs).length / 2 - 1) 0
        + (sortLe xs).getD ((sortLe xs).length / 2) 0) / 2

/-- A dataframe column of numeric cells; `none` is a missing value (NaN). -/
abbrev Col := List (Option ℚ)

/-- Median of a column, skipping missing values (pandas skipna default). -/
def colMedian (c : Col) : ℚ := medianQ (c.filterMap id)

/-- `fillna` with the column's own median: embeds
`df[features].fillna(df[features].median())` for one column. -/
def fillnaCol (c : Col) : List ℚ := c.map (fun o => o.getD (colMedian c))

/-- A pandas dataframe: named numeric columns (with missing cells), named
string columns (`muscle_group`) and named boolean columns (`successful`). -/
structure DataFrame where
  numCols : List (String × Col)
  strCols : List (String × List String)
  boolCols : List (String × List Bool)
deriving DecidableEq

/-- Column selection `df[name]` for a numeric column; `none` embeds the
`KeyError` pandas raises for an absent column. -/
def DataFrame.getCol? (df : DataFrame) (n : String) : Option Col :=
  (df.numCols.find? (fun p => p.1 == n)).map Prod.snd

/-- Column selection for a string column. -/
def DataFrame.getStrCol? (df : DataFrame) (n : String) : Option (List String) :=
  (df.strCols.find? (fun p => p.1 == n)).map Prod.snd

/-- Column selection for a boolean column. -/
def DataFrame.getBoolCol? (df : DataFrame) (n : String) : Option (List Bool) :=
  (df.boolCols.find? (fun p => p.1 == n)).map Prod.snd

/-- Selection of several numeric columns, `df[names]`; fails like pandas if
any name is absent. -/
def selectCols (df : DataFrame) : List String → Option (List (String × Col))
  | [] => some []
  | n :: ns =>
    match df.getCol? n, selectCols df ns with
    | some c, some rest => some ((n, c) :: rest)
    | _, _ => none

/-- Overwrite the named numeric columns of a dataframe (only reachable when
a pandas mutation is performed in place). -/
def writeNumCols (df : DataFrame) (upd : List (String × List ℚ)) : DataFrame :=
  DataFrame.mk
    (df.numCols.map (fun p =>
      match upd.lookup p.1 with
      | some c => (p.1, c.map some)
      | none => p))
    df.strCols df.boolCols

/-- `df[names].fillna(df[names].median())`: select the feature columns and
impute each column's missing values with that column's own median, computed
over the whole selected column. The first component of the result is the
caller's dataframe after the call: pandas `fillna` mutates it only when
`inplace=True` is passed, and the source always uses the default
`inplace=False`. -/
def dfFillnaSelect (df : DataFrame) (names : List String) (inplace : Bool) :
    Option (DataFrame × List (String × List ℚ)) :=
  match selectCols df names with
  | none => none
  | some sel =>
    let filled := sel.map (fun p => (p.1, fillnaCol p.2))
    some (if inplace then writeNumCols df filled else df, filled)

/-- `astype(int)` on one rational cell: truncation toward zero. -/
def truncQ (q : ℚ) : ℤ := q.num.tdiv q.den

/-- `df[target].astype(int)`: fails (like pandas) if any cell is missing. -/
def astypeIntCol (c : Col) : Option (List ℤ) :=
  if c.all Option.isSome then some (c.map (fun o => truncQ (o.getD 0))) else none

/-- `WorkoutSuccessPredictor.feature_names`. -/
def wsFeatureNames : List String :=
  ["sleep_hours", "sleep_quality", "calories", "protein", "fatigue_score",
   "days_since_rest", "planned_volume", "readiness_score", "injury_risk_score"]

/-- `WorkoutSuccessPredictor.prepare_data`: feature selection with median
imputation, target `workout_completed` cast to int. The first component of
the result is the caller's dataframe after the call. -/
def wsPrepare (df : DataFrame) :
    Option (DataFrame × List (String × List ℚ) × List ℤ) :=
  match dfFillnaSelect df wsFeatureNames false with
  | none => none
  | some (df1, x) =>
    match df1.getCol? "workout_completed" with
    | none => none
    | some yc =>
      match astypeIntCol yc with
      | none => none
      | some y => some (df1, x, y)

/-- `RecoveryTimePredictor.feature_names`. -/
def recFeatureNames : List String :=
  ["workout_volume", "workout_intensity", "sleep_quality", "nutrition_quality"]

/-- `RecoveryTimePredictor.muscle_groups`, fixed in `__init__` and never
reassigned anywhere in the class. -/
def muscleGroupsInit : List String :=
  ["chest", "back", "shoulders", "legs", "arms", "core"]

/-- Distinct values in order of first occurrence. -/
def dedupKeepFirst {α : Type} [DecidableEq α] (xs : List α) : List α :=
  xs.foldl (fun acc x => if x ∈ acc then acc else acc ++ [x]) []

/-- `pd.get_dummies(vals, prefix=pre)`: one indicator column per distinct
observed value, columns in sorted order of the category labels. -/
def getDummies (vals : List String) (pre : String) : List (String × List ℚ) :=
  (sortLe (dedupKeepFirst vals)).map
    (fun c => (pre ++ "_" ++ c, vals.map (fun v => if v = c then (1 : ℚ) else 0)))

/-- `RecoveryTimePredictor.prepare_data`: one-hot encode `muscle_group`,
median-impute the numeric features, concatenate numeric columns with the
indicator columns, target `actual_recovery_days`. First component is the
caller's dataframe after the call. -/
def recPrepare (df : DataFrame) :
    Option (DataFrame × List (String × List ℚ) × Col) :=
  match df.getStrCol? "muscle_group" with
  | none => none
  | some mg =>
    match dfFillnaSelect df recFeatureNames false with
    | none => none
    | some (df1, numX) =>
      match df1.getCol? "actual_recovery_days" with
      | none => none
      | some y => some (df1, numX ++ getDummies mg "muscle", y)

/-- `WeightProgressionPredictor.feature_names`. -/
def wpFeatureNames : List String :=
  ["previous_weight", "reps_achieved", "target_reps", "form_quality"]

/-- Boolean-mask row filtering, `df[mask]`. -/
def maskFilter {α : Type} (mask : List Bool) (c : List α) : List α :=
  ((mask.zip c).filter (fun p => p.1)).map Prod.snd

/-- Row filtering of a whole dataframe. -/
def DataFrame.filterRows (df : DataFrame) (mask : List Bool) : DataFrame :=
  DataFrame.mk
    (df.numCols.map (fun p => (p.1, maskFilter mask p.2)))
    (df.strCols.map (fun p => (p.1, maskFilter mask p.2)))
    (df.boolCols.map (fun p => (p.1, maskFilter mask p.2)))

/-- `WeightProgressionPredictor.prepare_data`: keep only rows with
`successful == True` (on a copy, so the caller's dataframe is untouched),
then median-impute the features over the retained rows, target
`weight_increase`. First component is the caller's dataframe after the
call. -/
def wpPrepare (df : DataFrame) :
    Option (DataFrame × List (String × List ℚ) × Col) :=
  match df.getBoolCol? "successful" with
  | none => none
  | some mask =>
    match dfFillnaSelect (df.filterRows mask) wpFeatureNames false with
    | none => none
    | some (_, x) =>
      match (df.filterRows mask).getCol? "weight_increase" with
      | none => none
      | some y => some (df, x, y)

/-- A 64-bit linear congruential step, the deterministic pseudo-random
source of the splitter model. -/
def lcg (s : Nat) : Nat :=
  (6364136223846793005 * s + 1442695040888963407) % 18446744073709551616

/-- Fuelled selection shuffle (helper for `seededPerm`). -/
def permAux : Nat → Nat → List Nat → List Nat
  | 0, _, _ => []
  | fuel + 1, seed, pool =>
    pool.getD (lcg seed % pool.length) 0 ::
      permAux fuel (lcg seed) (pool.eraseIdx (lcg seed % pool.length))

/-- Modelled from the spec: the seeded pseudo-random permutation of row
indices used by the external splitter (`train_test_split`), which is not
part of this repository. The spec requires only that the partition is a
deterministic function of the seed and the row count; it is modelled here
as a seeded Fisher-Yates-style selection shuffle over an LCG stream. -/
def seededPerm (seed n : Nat) : List Nat := permAux n seed (List.range n)

/-- Test-set size: `ceil(0.2 * n)`, as the external splitter computes it. -/
def testCount (n : Nat) : Nat := (Int.ceil ((1 : ℚ) / 5 * n)).toNat

/-- Modelled from the spec: `train_test_split(X, y, test_size=0.2,
random_state=rs)`. When `rs` is a fixed seed the ambient entropy is
ignored; when it is absent the splitter falls back to ambient entropy.
Returns `(train indices, test indices)`. -/
def trainTestIdx (rs : Option Nat) (entropy n : Nat) : List Nat × List Nat :=
  ((seededPerm (rs.getD entropy) n).drop (testCount n),
   (seededPerm (rs.getD entropy) n).take (testCount n))

/-- Restriction of a column to a list of row indices. -/
def restrictIdx {α : Type} (c : List α) (d : α) (idx : List Nat) : List α :=
  idx.map (fun i => c.getD i d)

/-- `StandardScaler.fit` on the training columns: per column the learned
`(mean_, var_, scale_)`, where `scale_` is the standard deviation with zeros
replaced by 1 (`_handle_zeros_in_scale`). The square root lives in the
external numeric library and is passed in as `sqrtFn`. -/
def fitScalerCols (sqrtFn : ℚ → ℚ) (cols : List (List ℚ)) : List (ℚ × ℚ × ℚ) :=
  cols.map (fun c => (colMean c, colVar c, handleZeros (sqrtFn (colVar c))))

/-- `StandardScaler.transform` applied column-wise with a fitted state. -/
def applyScalerCols (st : List (ℚ × ℚ × ℚ)) (cols : List (List ℚ)) : List (List ℚ) :=
  (cols.zip st).map (fun p => p.1.map (fun x => (x - p.2.1) / p.2.2.2))

/-- Row-major view of a column-major matrix. -/
def rowsOf (n : Nat) (cols : List (List ℚ)) : List (List ℚ) :=
  (List.range n).map (fun i => cols.map (fun c => c.getD i 0))

/-- `accuracy_score`: fraction of exactly correct predictions. -/
def accuracyQ (pred actual : List ℤ) : ℚ :=
  (((pred.zip actual).filter (fun p => p.1 == p.2)).length : ℚ) / actual.length

/-- `WorkoutSuccessPredictor.train`: prepare, split with the fixed seed 42,
fit the scaler on the training partition, scale both partitions, fit the
ensemble (an external function of its fixed seed 42 and the scaled training
data) and evaluate accuracy on the test partition. Returns the learned
scaler state and the evaluation metric. `entropy` is the ambient randomness
a run could draw on; the source pins `random_state=42` for both the split
and the forest, so it is never consulted. -/
def wsTrain (sqrtFn : ℚ → ℚ) (fit : Nat → List (List ℚ) → List ℤ → (List ℚ → ℤ))
    (entropy : Nat) (df : DataFrame) : Option (List (ℚ × ℚ × ℚ) × ℚ) :=
  match wsPrepare df with
  | none => none
  | some (_, x, y) =>
    let idx := trainTestIdx (some 42) entropy y.length
    let cols := x.map Prod.snd
    let trCols := cols.map (fun c => restrictIdx c 0 idx.1)
    let teCols := cols.map (fun c => restrictIdx c 0 idx.2)
    let st := fitScalerCols sqrtFn trCols
    let model := fit 42 (rowsOf idx.1.length (applyScalerCols st trCols))
      (restrictIdx y 0 idx.1)
    some (st, accuracyQ ((rowsOf idx.2.length (applyScalerCols st teCols)).map model)
      (restrictIdx y 0 idx.2))

/-- The record returned by `WorkoutSuccessPredictor.predict`. -/
structure WSPrediction where
  will_complete : Bool
  probability : ℚ
  confidence : ℚ
deriving DecidableEq

/-- `WorkoutSuccessPredictor.predict`: scale the single feature vector with
the persisted per-column `(mean, scale)` state, obtain the class-1
probability from the fitted ensemble (external, passed as `proba`) and map
it to the decision record: `will_complete = probability > 0.5`,
`confidence = |probability - 0.5| * 2`. -/
def wsPredict (st : List (ℚ × ℚ)) (proba : List ℚ → ℚ) (features : List ℚ) :
    WSPrediction :=
  WSPrediction.mk
    (decide (proba ((features.zip st).map (fun p => (p.1 - p.2.1) / p.2.2)) > 1 / 2))
    (proba ((features.zip st).map (fun p => (p.1 - p.2.1) / p.2.2)))
    (|proba ((features.zip st).map (fun p => (p.1 - p.2.1) / p.2.2)) - 1 / 2| * 2)

/-- `RecoveryTimePredictor.predict`: scale the single feature vector, obtain
the regression value (external, passed as `model`) and return
`(recovery_days, recovery_hours = days * 24)`. -/
def recPredict (st : List (ℚ × ℚ)) (model : List ℚ → ℚ) (features : List ℚ) :
    ℚ × ℚ :=
  (model ((features.zip st).map (fun p => (p.1 - p.2.1) / p.2.2)),
   model ((features.zip st).map (fun p => (p.1 - p.2.1) / p.2.2)) * 24)

/-- Modelled from the spec: the inference-time indicator-vector construction
for a muscle-group category. The application backend (not part of this
repository) builds one indicator per persisted category, in order, so a
value absent from the persisted list yields the all-zero vector. -/
def oneHotEncode (groups : List String) (g : String) : List ℚ :=
  groups.map (fun c => if g = c then 1 else 0)

/-- The bundle persisted by `RecoveryTimePredictor.save` (the fitted
ensemble itself is opaque and omitted; the scaler state stands in for the
trained state). -/
structure RecArtifact where
  scaler : List (ℚ × ℚ × ℚ)
  feature_names : List String
  muscle_groups : List String
  trained_at : String
deriving DecidableEq

/-- The distinct muscle-group values observed in a dataset, sorted. -/
def observedMuscleGroups (df : DataFrame) : List String :=
  match df.getStrCol? "muscle_group" with
  | none => []
  | some mg => sortLe (dedupKeepFirst mg)

/-- `RecoveryTimePredictor.train` followed by `save`: prepare (numeric
features plus indicator columns), split with seed 42, fit the scaler on the
training partition, and persist the bundle with the class's
`feature_names` and `muscle_groups` fields and the creation timestamp. -/
def recTrainAndSave (sqrtFn : ℚ → ℚ) (entropy : Nat) (df : DataFrame) (ts : String) :
    Option RecArtifact :=
  match recPrepare df with
  | none => none
  | some (_, x, y) =>
    let idx := trainTestIdx (some 42) entropy y.length
    let trCols := (x.map Prod.snd).map (fun c => restrictIdx c 0 idx.1)
    some (RecArtifact.mk (fitScalerCols sqrtFn trCols) recFeatureNames
      muscleGroupsInit ts)

/-- One file-system operation, for the persistence model. -/
inductive FsOp where
  | truncOpen : String → FsOp
  | write : String → String → FsOp
  | rename : String → String → FsOp
deriving DecidableEq

/-- A file system: path-content pairs. -/
abbrev FsState := List (String × String)

/-- Update a path's content. -/
def fsSet (fs : FsState) (p v : String) : FsState :=
  (p, v) :: fs.filter (fun q => q.1 != p)

/-- Read a path's content. -/
def fsGet (fs : FsState) (p : String) : Option String := fs.lookup p

/-- Remove a path. -/
def fsErase (fs : FsState) (p : String) : FsState := fs.filter (fun q => q.1 != p)

/-- Effect of one operation: truncating open, appending write, atomic
rename. -/
def applyFsOp (fs : FsState) : FsOp → FsState
  | FsOp.truncOpen p => fsSet fs p ""
  | FsOp.write p c => fsSet fs p ((fsGet fs p).getD "" ++ c)
  | FsOp.rename src dst =>
    match fsGet fs src with
    | some v => fsSet (fsErase fs src) dst v
    | none => fs

/-- Run a trace of operations. -/
def runFsOps (fs : FsState) (ops : List FsOp) : FsState := ops.foldl applyFsOp fs

/-- Everything a reader of `dest` can observe at any point during the
trace: the content (or absence) of `dest` after every proper stage. -/
def observations (dest : String) (fs : FsState) (ops : List FsOp) :
    List (Option String) :=
  (List.range (ops.length + 1)).map (fun k => fsGet (runFsOps fs (ops.take k)) dest)

/-- Atomicity of a save trace: at every intermediate point a reader of the
destination sees either the old state or the complete serialized bundle. -/
def AtomicSave (dest full : String) (fs : FsState) (ops : List FsOp) : Prop :=
  ∀ obs ∈ observations dest fs ops, obs = fsGet fs dest ∨ obs = some full

instance (dest full : String) (fs : FsState) (ops : List FsOp) :
    Decidable (AtomicSave dest full fs ops) :=
  inferInstanceAs
    (Decidable (∀ obs ∈ observations dest fs ops, obs = fsGet fs dest ∨ obs = some full))

/-- `joblib.dump(bundle, path)`: open the destination itself for truncating
write and stream the serialized chunks into it; no temporary file and no
rename. -/
def joblibDump (path : String) (chunks : List String) : List FsOp :=
  FsOp.truncOpen path :: chunks.map (FsOp.write path)

/-- Destination path of `WorkoutSuccessPredictor.save`. -/
def wsSavePath : String := "models/workout_success_model.pkl"

/-- The file-system trace of `WorkoutSuccessPredictor.save`, with the
serialized bundle abstracted as its list of written chunks. -/
def wsSaveTrace (chunks : List String) : List FsOp := joblibDump wsSavePath chunks

/-- The three task names of the command surface, in execution order. -/
def taskNames : List String := ["workout_success", "recovery_time", "weight_progression"]

/-- The `__main__` block for `--model all`: the three training functions are
called sequentially with no exception handling, so a raised error in one
call propagates and ends the process. Each task's outcome is a parameter;
the result is the list of tasks that were attempted and the error (if any)
that terminated the run. -/
def mainAll (r1 r2 r3 : Except String Unit) : List String × Option String :=
  match r1 with
  | Except.error e => (["workout_success"], some e)
  | Except.ok _ =>
    match r2 with
    | Except.error e => (["workout_success", "recovery_time"], some e)
    | Except.ok _ =>
      match r3 with
      | Except.error e => (taskNames, some e)
      | Except.ok _ => (taskNames, none)

/-- A concrete workout-success dataset: two rows, all schema columns
present, one missing `sleep_hours` cell. -/
def dfWsEx : DataFrame :=
  DataFrame.mk
    [("sleep_hours", [some 7, none]),
     ("sleep_quality", [some 3, some 4]),
     ("calories", [some 2000, some 2200]),
     ("protein", [some 80, some 90]),
     ("fatigue_score", [some 2, some 3]),
     ("days_since_rest", [some 1, some 2]),
     ("planned_volume", [some 10, some 12]),
     ("readiness_score", [some 5, some 6]),
     ("injury_risk_score", [some 1, some 1]),
     ("workout_completed", [some 1, some 0])]
    [] []

/-- A concrete recovery dataset: two rows whose only observed muscle group
is "chest". -/
def dfRecEx : DataFrame :=
  DataFrame.mk
    [("workout_volume", [some 10, some 12]),
     ("workout_intensity", [some 5, some 6]),
     ("sleep_quality", [some 3, some 4]),
     ("nutrition_quality", [some 2, some 3]),
     ("actual_recovery_days", [some 2, some 3])]
    [("muscle_group", ["chest", "chest"])]
    []

/-- A concrete weight-progression dataset: five rows, the last two not
successful, and a missing `previous_weight` cell in a successful row. The
median over the successful rows (2) differs from the median over the
entire input column (103/2). -/
def dfWpEx : DataFrame :=
  DataFrame.mk
    [("previous_weight", [none, some 1, some 3, some 100, some 200]),
     ("reps_achieved", [some 8, some 8, some 8, some 8, some 8]),
     ("target_reps", [some 8, some 8, some 8, some 8, some 8]),
     ("form_quality", [some 3, some 3, some 3, some 3, some 3]),
     ("weight_increase", [some 1, some 1, some 2, some 5, some 5])]
    []
    [("successful", [true, true, true, false, false])]

/-- The result of `prepare_data` on `dfWsEx` (defined for the concrete
instantiations below). -/
def wsPrepResEx : DataFrame × List (String × List ℚ) × List ℤ :=
  (wsPrepare dfWsEx).getD (dfWsEx, [], [])

/-- The result of `prepare_data` on `dfRecEx`. -/
def recPrepResEx : DataFrame × List (String × List ℚ) × Col :=
  (recPrepare dfRecEx).getD (dfRecEx, [], [])

/-- The result of `prepare_data` on `dfWpEx`. -/
def wpPrepResEx : DataFrame × List (String × List ℚ) × Col :=
  (wpPrepare dfWpEx).getD (dfWpEx, [], [])

/-- The artifact persisted by a recovery training run on `dfRecEx`. -/
def recArtifactEx : RecArtifact :=
  (recTrainAndSave (fun _ => 0) 0 dfRecEx "t").getD (RecArtifact.mk [] [] [] "")

theorem handleZeros_ne_zero (s : ℚ) : handleZeros s ≠ 0 := by
  by_cases h : s = 0 <;> simp [handleZeros, h]

theorem handleZeros_of_ne (s : ℚ) (h : s ≠ 0) : handleZeros s = s := by
  simp [handleZeros, h]

theorem sum_map_sub_div (xs : List ℚ) (m k : ℚ) :
    (xs.map (fun x => (x - m) / k)).sum = (xs.sum - xs.length * m) / k := by
  induction xs with
  | nil => simp
  | cons a t ih =>
    simp only [List.map_cons, List.sum_cons, ih, List.length_cons]
    rw [div_add_div_same]
    push_cast
    ring_nf

theorem sum_map_div (xs : List ℚ) (g : ℚ → ℚ) (k : ℚ) :
    (xs.map (fun x => g x / k)).sum = (xs.map g).sum / k := by
  induction xs with
  | nil => simp
  | cons a t ih =>
    simp only [List.map_cons, List.sum_cons, ih]
    rw [div_add_div_same]

theorem length_cast_ne_zero {xs : List ℚ} (h : xs ≠ []) : (xs.length : ℚ) ≠ 0 := by
  have hpos : 0 < xs.length := List.length_pos.mpr h
  exact_mod_cast Nat.pos_iff_ne_zero.mp hpos

theorem colMean_transformCol (xs : List ℚ) (m s : ℚ) (h : xs ≠ []) :
    colMean (transformCol m s xs) = (colMean xs - m) / handleZeros s := by
  have hk := handleZeros_ne_zero s
  have hL := length_cast_ne_zero h
  unfold colMean transformCol
  rw [List.length_map, sum_map_sub_div]
  have hsub : xs.sum / (xs.length : ℚ) - m = (xs.sum - xs.length * m) / xs.length := by
    field_simp
  rw [hsub, div_div, div_div]
  ring_nf

theorem colMean_center (xs : List ℚ) (s : ℚ) (h : xs ≠ []) :
    colMean (transformCol (colMean xs) s xs) = 0 := by
  rw [colMean_transformCol xs (colMean xs) s h, sub_self, zero_div]

theorem colMean_map_div (xs : List ℚ) (g : ℚ → ℚ) (k : ℚ) :
    colMean (xs.map (fun x => g x / k)) = colMean (xs.map g) / k := by
  unfold colMean
  rw [sum_map_div, List.length_map, List.length_map, div_right_comm]

theorem colVar_transformCol (xs : List ℚ) (s : ℚ) (h : xs ≠ []) :
    colVar (transformCol (colMean xs) s xs) = colVar xs / handleZeros s ^ 2 := by
  unfold colVar
  simp only [colMean_center xs s h, sub_zero]
  unfold transformCol
  rw [List.map_map]
  have hcomp : ((fun x => x ^ 2) ∘ fun x => (x - colMean xs) / handleZeros s)
      = fun x => (x - colMean xs) ^ 2 / handleZeros s ^ 2 := by
    funext x
    simp [Function.comp, div_pow]
  rw [hcomp, colMean_map_div]

theorem sum_nonneg_zero (l : List ℚ) (h0 : ∀ x ∈ l, 0 ≤ x) (hs : l.sum = 0) :
    ∀ x ∈ l, x = 0 := by
  induction l with
  | nil => simp
  | cons a t ih =>
    have ha : 0 ≤ a := h0 a (by simp)
    have ht : 0 ≤ t.sum := List.sum_nonneg (fun x hx => h0 x (by simp [hx]))
    have hs' : a + t.sum = 0 := by simpa using hs
    have ha0 : a = 0 := by linarith
    have ht0 : t.sum = 0 := by linarith
    intro x hx
    rcases List.mem_cons.mp hx with h | h
    · rw [h, ha0]
    · exact ih (fun y hy => h0 y (by simp [hy])) ht0 x h

theorem var_zero_all_mean (xs : List ℚ) (hv : colVar xs = 0) (hne : xs ≠ []) :
    ∀ x ∈ xs, x = colMean xs := by
  have hL := length_cast_ne_zero hne
  unfold colVar colMean at hv
  rw [List.length_map] at hv
  have hsum : (xs.map (fun x => (x - colMean xs) ^ 2)).sum = 0 := by
    rcases div_eq_zero_iff.mp hv with h | h
    · exact h
    · exact absurd h hL
  intro x hx
  have hmem : (x - colMean xs) ^ 2 ∈ xs.map (fun x => (x - colMean xs) ^ 2) :=
    List.mem_map_of_mem _ hx
  have hz : (x - colMean xs) ^ 2 = 0 := by
    refine sum_nonneg_zero _ ?_ hsum _ hmem
    intro y hy
    rcases List.mem_map.mp hy with ⟨w, _, rfl⟩
    positivity
  have : x - colMean xs = 0 := by
    exact pow_eq_zero_iff (by norm_num) |>.mp hz
  linarith [sub_eq_zero.mp this]

theorem fillnaCol_get (c : Col) (i : Nat) (h : c.get? i = some none) :
    (fillnaCol c).get? i = some (colMedian c) := by
  unfold fillnaCol
  rw [List.get?_map, h]
  rfl

theorem lookup_append_some {α β : Type} [BEq α] (l1 l2 : List (α × β)) (a : α) (b : β)
    (h : l1.lookup a = some b) : (l1 ++ l2).lookup a = some b := by
  induction l1 with
  | nil => simp [List.lookup] at h
  | cons p t ih =>
    obtain ⟨k, v⟩ := p
    rw [List.cons_append]
    cases hb : a == k
    · rw [List.lookup] at h ⊢
      rw [hb] at h ⊢
      exact ih h
    · rw [List.lookup] at h ⊢
      rw [hb] at h ⊢
      exact h

theorem selectCols_map_fst (df : DataFrame) (names : List String)
    (sel : List (String × Col)) (h : selectCols df names = some sel) :
    sel.map Prod.fst = names := by
  induction names generalizing sel with
  | nil =>
    unfold selectCols at h
    have hh := Option.some.inj h
    subst hh
    rfl
  | cons m ns ih =>
    unfold selectCols at h
    cases hm : df.getCol? m with
    | none => rw [hm] at h; exact absurd h (by simp)
    | some cm =>
      cases hr : selectCols df ns with
      | none => rw [hm, hr] at h; exact absurd h (by simp)
      | some rest =>
        rw [hm, hr] at h
        have hh := Option.some.inj h
        subst hh
        simp [ih rest hr]

theorem selectCols_lookup_fill (df : DataFrame) (names : List String)
    (sel : List (String × Col)) (h : selectCols df names = some sel)
    (n : String) (c : Col) (hn : n ∈ names) (hc : df.getCol? n = some c) :
    (sel.map (fun p => (p.1, fillnaCol p.2))).lookup n = some (fillnaCol c) := by
  induction names generalizing sel with
  | nil => simp at hn
  | cons m ns ih =>
    unfold selectCols at h
    cases hm : df.getCol? m with
    | none => rw [hm] at h; exact absurd h (by simp)
    | some cm =>
      cases hr : selectCols df ns with
      | none => rw [hm, hr] at h; exact absurd h (by simp)
      | some rest =>
        rw [hm, hr] at h
        have hh := Option.some.inj h
        subst hh
        by_cases hnm : n = m
        · subst hnm
          have hcc : cm = c := Option.some.inj (hm ▸ hc)
          subst hcc
          simp [List.lookup]
        · have hn' : n ∈ ns := by
            rcases List.mem_cons.mp hn with h | h
            · exact absurd h hnm
            · exact h
          have hbeq : (n == m) = false := beq_eq_false_iff_ne.mpr hnm
          rw [List.map_cons, List.lookup, hbeq]
          exact ih rest hr hn'

theorem dfFillnaSelect_eq (df : DataFrame) (names : List String) (d : DataFrame)
    (x : List (String × List ℚ)) (h : dfFillnaSelect df names false = some (d, x)) :
    d = df ∧ ∃ sel, selectCols df names = some sel ∧
      x = sel.map (fun p => (p.1, fillnaCol p.2)) := by
  unfold dfFillnaSelect at h
  cases hsel : selectCols df names with
  | none => rw [hsel] at h; exact absurd h (by simp)
  | some sel =>
    rw [hsel] at h
    simp only [Bool.false_eq_true, if_false, Option.some.injEq, Prod.mk.injEq] at h
    exact ⟨h.1.symm, sel, rfl, h.2.symm⟩

theorem wsPrepare_inv (df d : DataFrame) (x : List (String × List ℚ)) (y : List ℤ)
    (h : wsPrepare df = some (d, x, y)) :
    d = df ∧ ∃ sel, selectCols df wsFeatureNames = some sel ∧
      x = sel.map (fun p => (p.1, fillnaCol p.2)) := by
  unfold wsPrepare at h
  cases hf : dfFillnaSelect df wsFeatureNames false with
  | none => rw [hf] at h; exact absurd h (by simp)
  | some v =>
    obtain ⟨d1, x1⟩ := v
    rw [hf] at h
    dsimp only at h
    obtain ⟨hd1, sel, hsel, hx1⟩ := dfFillnaSelect_eq df wsFeatureNames d1 x1 hf
    cases hy : d1.getCol? "workout_completed" with
    | none => rw [hy] at h; exact absurd h (by simp)
    | some yc =>
      rw [hy] at h
      dsimp only at h
      cases ha : astypeIntCol yc with
      | none => rw [ha] at h; exact absurd h (by simp)
      | some yv =>
        rw [ha] at h
        simp only [Option.some.injEq, Prod.mk.injEq] at h
        obtain ⟨hd, hx, -⟩ := h
        exact ⟨hd ▸ hd1, sel, hsel, hx ▸ hx1⟩

theorem recPrepare_inv (df d : DataFrame) (x : List (String × List ℚ)) (y : Col)
    (h : recPrepare df = some (d, x, y)) :
    d = df ∧ ∃ mg sel, df.getStrCol? "muscle_group" = some mg ∧
      selectCols df recFeatureNames = some sel ∧
      x = sel.map (fun p => (p.1, fillnaCol p.2)) ++ getDummies mg "muscle" := by
  unfold recPrepare at h
  cases hmg : df.getStrCol? "muscle_group" with
  | none => rw [hmg] at h; exact absurd h (by simp)
  | some mg =>
    rw [hmg] at h
    dsimp only at h
    cases hf : dfFillnaSelect df recFeatureNames false with
    | none => rw [hf] at h; exact absurd h (by simp)
    | some v =>
      obtain ⟨d1, x1⟩ := v
      rw [hf] at h
      dsimp only at h
      obtain ⟨hd1, sel, hsel, hx1⟩ := dfFillnaSelect_eq df recFeatureNames d1 x1 hf
      cases hy : d1.getCol? "actual_recovery_days" with
      | none => rw [hy] at h; exact absurd h (by simp)
      | some yc =>
        rw [hy] at h
        simp only [Option.some.injEq, Prod.mk.injEq] at h
        obtain ⟨hd, hx, -⟩ := h
        exact ⟨hd ▸ hd1, mg, sel, rfl, hsel, hx ▸ (hx1 ▸ rfl)⟩

theorem wpPrepare_inv (df d : DataFrame) (x : List (String × List ℚ)) (y : Col)
    (h : wpPrepare df = some (d, x, y)) :
    d = df ∧ ∃ mask sel, df.getBoolCol? "successful" = some mask ∧
      selectCols (df.filterRows mask) wpFeatureNames = some sel ∧
      x = sel.map (fun p => (p.1, fillnaCol p.2)) := by
  unfold wpPrepare at h
  cases hm : df.getBoolCol? "successful" with
  | none => rw [hm] at h; exact absurd h (by simp)
  | some mask =>
    rw [hm] at h
    dsimp only at h
    cases hf : dfFillnaSelect (df.filterRows mask) wpFeatureNames false with
    | none => rw [hf] at h; exact absurd h (by simp)
    | some v =>
      obtain ⟨d1, x1⟩ := v
      rw [hf] at h
      dsimp only at h
      obtain ⟨-, sel, hsel, hx1⟩ := dfFillnaSelect_eq (df.filterRows mask) wpFeatureNames d1 x1 hf
      cases hy : (df.filterRows mask).getCol? "weight_increase" with
      | none => rw [hy] at h; exact absurd h (by simp)
      | some yc =>
        rw [hy] at h
        simp only [Option.some.injEq, Prod.mk.injEq] at h
        obtain ⟨hd, hx, -⟩ := h
        exact ⟨hd.symm, mask, sel, rfl, hsel, hx ▸ hx1⟩

theorem insertLe_length {α : Type} [LE α] [DecidableRel ((· ≤ ·) : α → α → Prop)]
    (x : α) (l : List α) : (insertLe x l).length = l.length + 1 := by
  induction l with
  | nil => rfl
  | cons y ys ih =>
    by_cases h : x ≤ y
    · simp [insertLe, h]
    · simp [insertLe, h, ih]

theorem sortLe_length {α : Type} [LE α] [DecidableRel ((· ≤ ·) : α → α → Prop)]
    (xs : List α) : (sortLe xs).length = xs.length := by
  induction xs with
  | nil => rfl
  | cons a t ih =>
    show (insertLe a (sortLe t)).length = t.length + 1
    rw [insertLe_length, ih]

theorem dedupFold_le {α : Type} [DecidableEq α] (l acc : List α) :
    acc.length ≤ (l.foldl (fun acc x => if x ∈ acc then acc else acc ++ [x]) acc).length := by
  induction l generalizing acc with
  | nil => simp
  | cons a t ih =>
    simp only [List.foldl_cons]
    refine le_trans ?_ (ih _)
    by_cases h : a ∈ acc
    · simp [h]
    · simp [h]

theorem dedupKeepFirst_length_pos {α : Type} [DecidableEq α] (x : α) (t : List α) :
    0 < (dedupKeepFirst (x :: t)).length := by
  have h := dedupFold_le t [x]
  unfold dedupKeepFirst
  rw [List.foldl_cons]
  have h2 : (if x ∈ ([] : List α) then ([] : List α) else [] ++ [x]) = [x] := by simp
  rw [h2]
  exact lt_of_lt_of_le Nat.one_pos h

theorem getDummies_length (vals : List String) (pre : String) :
    (getDummies vals pre).length = (dedupKeepFirst vals).length := by
  unfold getDummies
  rw [List.length_map, sortLe_length]

theorem recTrainAndSave_inv (sqrtFn : ℚ → ℚ) (entropy : Nat) (df : DataFrame)
    (ts : String) (art : RecArtifact)
    (h : recTrainAndSave sqrtFn entropy df ts = some art) :
    art.feature_names = recFeatureNames ∧ art.muscle_groups = muscleGroupsInit ∧
    art.trained_at = ts ∧
    ∀ d x y, recPrepare df = some (d, x, y) → art.scaler.length = x.length := by
  unfold recTrainAndSave at h
  cases hp : recPrepare df with
  | none => rw [hp] at h; exact absurd h (by simp)
  | some v =>
    obtain ⟨d0, x0, y0⟩ := v
    rw [hp] at h
    dsimp only at h
    have hh := Option.some.inj h
    refine ⟨?_, ?_, ?_, ?_⟩
    · rw [← hh]
    · rw [← hh]
    · rw [← hh]
    · intro d x y hp2
      simp only [Option.some.injEq, Prod.mk.injEq] at hp2
      obtain ⟨-, hx0, -⟩ := hp2
      rw [← hh, ← hx0]
      simp [fitScalerCols]

/-- C1: for every training feature column, after the scaler fitted on that
column is applied to it, the transformed column has mean exactly 0 and
variance exactly 1 — hence standard deviation 1 — except that a constant
column (variance 0, scale treated as 1) maps to the all-zero column. The
standard deviation `s` of the column is characterized exactly by `0 ≤ s`
and `s ^ 2 = colVar xs`. -/
theorem c1_train_column_standardized (xs : List ℚ) (s : ℚ)
    (hne : xs ≠ []) (hs0 : 0 ≤ s) (hs : s ^ 2 = colVar xs) :
    colMean (transformCol (colMean xs) s xs) = 0 ∧
    (colVar xs ≠ 0 → colVar (transformCol (colMean xs) s xs) = 1) ∧
    (colVar xs = 0 → ∀ z ∈ transformCol (colMean xs) s xs, z = 0) := by
  refine ⟨colMean_center xs s hne, ?_, ?_⟩
  · intro hv
    have hsne : s ≠ 0 := by
      intro h
      rw [h] at hs
      exact hv (by rw [← hs]; ring)
    rw [colVar_transformCol xs s hne, handleZeros_of_ne s hsne, hs, div_self hv]
  · intro hv z hz
    unfold transformCol at hz
    rcases List.mem_map.mp hz with ⟨x, hx, rfl⟩
    rw [var_zero_all_mean xs hv hne x hx, sub_self, zero_div]

/-- Witness for C1 at the concrete training column `[0, 2]`, whose mean is
1, variance 1 and standard deviation 1. -/
theorem c1_train_column_standardized_witness :
    colMean (transformCol (colMean [0, 2]) 1 [0, 2]) = 0 ∧
    (colVar [(0 : ℚ), 2] ≠ 0 → colVar (transformCol (colMean [0, 2]) 1 [0, 2]) = 1) ∧
    (colVar [(0 : ℚ), 2] = 0 → ∀ z ∈ transformCol (colMean [0, 2]) 1 [0, 2], z = 0) :=
  c1_train_column_standardized [0, 2] 1 (by simp) (by norm_num)
    (by norm_num [colVar, colMean])

/-- C2: for every scaler state, fitted ensemble and input feature vector,
the single-sample prediction has `will_complete = true` iff the class-1
probability is strictly greater than 0.5, and
`confidence = |probability - 0.5| * 2`; a probability of exactly 0.5 yields
`will_complete = false` and `confidence = 0`. -/
theorem c2_classifier_decision_rule (st : List (ℚ × ℚ)) (proba : List ℚ → ℚ)
    (features : List ℚ) :
    ((wsPredict st proba features).will_complete = true ↔
      (wsPredict st proba features).probability > 1 / 2) ∧
    (wsPredict st proba features).confidence =
      |(wsPredict st proba features).probability - 1 / 2| * 2 ∧
    ((wsPredict st proba features).probability = 1 / 2 →
      (wsPredict st proba features).will_complete = false ∧
      (wsPredict st proba features).confidence = 0) := by
  unfold wsPredict
  refine ⟨by simp, rfl, fun h => ?_⟩
  simp only at h
  constructor
  · simp [h]
  · simp only [h]
    simp

/-- Witness for C2 at the decision boundary: a model that returns exactly
0.5 yields `will_complete = false` and `confidence = 0`. -/
theorem c2_classifier_decision_rule_witness :
    (wsPredict [] (fun _ => 1 / 2) []).will_complete = false ∧
    (wsPredict [] (fun _ => 1 / 2) []).confidence = 0 :=
  (c2_classifier_decision_rule [] (fun _ => 1 / 2) []).2.2 rfl

/-- C4: training is deterministic. The ambient entropy a run could draw on
is an explicit parameter; because the source pins `random_state=42` for
both the train/test split and the ensemble, two complete training runs at
arbitrary (different) ambient entropy produce identical scaler state
(per-column means, variances and scales) and identical evaluation
metrics, for every dataset and every (deterministic) external square root
and ensemble-fitting procedure. -/
theorem c4_training_deterministic (sqrtFn : ℚ → ℚ)
    (fit : Nat → List (List ℚ) → List ℤ → (List ℚ → ℤ)) (e1 e2 : Nat)
    (df : DataFrame) :
    wsTrain sqrtFn fit e1 df = wsTrain sqrtFn fit e2 df := rfl

/-- C5 counterexample: the save trace of `joblib.dump` writes the pickle
directly into the destination path, so a reader between the two chunk
writes observes the strict prefix "ab" of the full bundle "abcd" — neither
the old state (absent) nor the complete artifact. The claimed atomicity
fails at this concrete input. -/
theorem c5_save_atomicity_counterexample :
    ¬ AtomicSave wsSavePath "abcd" [] (wsSaveTrace ["ab", "cd"]) := by
  decide

/-- C5 amended: `save` serializes the bundle non-atomically: the trace
opens the destination path itself with truncation, streams the chunks into
it, and performs no rename; consequently a reader during the save can
observe a partially written artifact (concretely, the prefix "ab" of
"abcd"). -/
theorem c5_save_writes_directly (chunks : List String) :
    wsSaveTrace chunks =
      FsOp.truncOpen wsSavePath :: chunks.map (FsOp.write wsSavePath) ∧
    (∀ op ∈ wsSaveTrace chunks, ∀ src dst, op ≠ FsOp.rename src dst) ∧
    some "ab" ∈ observations wsSavePath [] (wsSaveTrace ["ab", "cd"]) ∧
    some "ab" ≠ some "abcd" ∧ fsGet ([] : FsState) wsSavePath = none := by
  refine ⟨rfl, ?_, by decide, by decide, rfl⟩
  intro op hop src dst
  unfold wsSaveTrace joblibDump at hop
  rcases List.mem_cons.mp hop with h | h
  · subst h
    simp
  · rcases List.mem_map.mp h with ⟨c, _, rfl⟩
    simp

/-- C6 counterexample: in an "all" invocation where the first task raises,
the second task is never attempted — the unguarded sequential calls in
`__main__` stop at the first propagated exception. -/
theorem c6_all_tasks_counterexample :
    "recovery_time" ∉ (mainAll (Except.error "boom") (Except.ok ()) (Except.ok ())).1 := by
  decide

/-- C6 amended: the `__main__` block wraps no task in a handler, so in an
"all" invocation a raised error in an earlier task prevents every later
task from being attempted; the error that terminated the run is the one
reported, and only a run in which every task succeeds attempts all
three. -/
theorem c6_failure_aborts_later_tasks (e : String) (r2 r3 : Except String Unit) :
    (mainAll (Except.error e) r2 r3).1 = ["workout_success"] ∧
    (mainAll (Except.error e) r2 r3).2 = some e ∧
    (∀ r : Except String Unit,
      (mainAll (Except.ok ()) (Except.error e) r).1 = ["workout_success", "recovery_time"]) ∧
    (mainAll (Except.ok ()) (Except.ok ()) (Except.error e)).1 = taskNames ∧
    (mainAll (Except.ok ()) (Except.ok ()) (Except.ok ())).2 = none :=
  ⟨rfl, rfl, fun _ => rfl, rfl, rfl⟩

/-- C7: at inference time for the recovery task, a muscle-group value not
among the persisted categories produces the all-zero indicator vector, and
the prediction on the composed feature vector is still returned (the pair
`(days, days * 24)`), rather than an error being raised. -/
theorem c7_unseen_category (st : List (ℚ × ℚ)) (model : List ℚ → ℚ)
    (nums : List ℚ) (g : String) (hg : g ∉ muscleGroupsInit) :
    oneHotEncode muscleGroupsInit g = List.replicate 6 0 ∧
    ∃ d : ℚ, recPredict st model (nums ++ oneHotEncode muscleGroupsInit g) = (d, d * 24) := by
  constructor
  · refine List.eq_replicate_iff.mpr ⟨by simp [oneHotEncode, muscleGroupsInit], ?_⟩
    intro b hb
    rcases List.mem_map.mp hb with ⟨c, hc, rfl⟩
    have hne : g ≠ c := fun h => hg (h.symm ▸ hc)
    exact if_neg hne
  · exact ⟨_, rfl⟩

/-- Witness for C7 at the concrete unseen category "neck". -/
theorem c7_unseen_category_witness :
    oneHotEncode muscleGroupsInit "neck" = List.replicate 6 0 ∧
    ∃ d : ℚ, recPredict [] (fun _ => 3) ([] ++ oneHotEncode muscleGroupsInit "neck") = (d, d * 24) :=
  c7_unseen_category [] (fun _ => 3) [] "neck" (by decide)

/-- C3 counterexample: for the weight-progression task the claim "missing
values are replaced by that column's median computed over the entire input
dataset" fails at `dfWpEx`: the missing `previous_weight` cell of a
successful row is imputed with 2 (the median over the successful rows
only), while the median of the entire input column is 103/2. -/
theorem c3_full_dataset_median_counterexample :
    wpPrepResEx.2.1.lookup "previous_weight" = some (fillnaCol [none, some 1, some 3]) ∧
    fillnaCol [none, some 1, some 3] = [2, 1, 3] ∧
    dfWpEx.getCol? "previous_weight" = some [none, some 1, some 3, some 100, some 200] ∧
    colMedian [none, some 1, some 3, some 100, some 200] = 103 / 2 ∧
    (2 : ℚ) ≠ 103 / 2 := by
  refine ⟨rfl, ?_, rfl, ?_, by norm_num⟩
  · norm_num [fillnaCol, colMedian, medianQ, sortLe, insertLe, List.filterMap_cons,
      List.filterMap_nil, List.foldr_cons, List.foldr_nil, List.getD,
      List.getElem?_cons_zero, List.getElem?_cons_succ, List.getElem?_nil]
  · norm_num [colMedian, medianQ, sortLe, insertLe, List.filterMap_cons,
      List.filterMap_nil, List.foldr_cons, List.foldr_nil, List.getD,
      List.getElem?_cons_zero, List.getElem?_cons_succ, List.getElem?_nil]

/-- C3 amended: in every task, missing values of a numeric feature column
are replaced by that column's median computed over the rows available to
that task's preparation, before the train/test split and never over the
training partition alone — over the entire input dataset for the
workout-success and recovery tasks, and over the retained (successful)
rows for the weight-progression task. -/
theorem c3_imputation_uses_pre_split_median :
    (∀ (df d : DataFrame) (x : List (String × List ℚ)) (y : List ℤ) (n : String) (c : Col),
      wsPrepare df = some (d, x, y) → n ∈ wsFeatureNames → df.getCol? n = some c →
      x.lookup n = some (fillnaCol c) ∧
      ∀ i, c.get? i = some none → (fillnaCol c).get? i = some (colMedian c)) ∧
    (∀ (df d : DataFrame) (x : List (String × List ℚ)) (y : Col) (n : String) (c : Col),
      recPrepare df = some (d, x, y) → n ∈ recFeatureNames → df.getCol? n = some c →
      x.lookup n = some (fillnaCol c) ∧
      ∀ i, c.get? i = some none → (fillnaCol c).get? i = some (colMedian c)) ∧
    (∀ (df : DataFrame) (mask : List Bool) (d : DataFrame)
        (x : List (String × List ℚ)) (y : Col) (n : String) (c : Col),
      df.getBoolCol? "successful" = some mask →
      wpPrepare df = some (d, x, y) → n ∈ wpFeatureNames →
      (df.filterRows mask).getCol? n = some c →
      x.lookup n = some (fillnaCol c) ∧
      ∀ i, c.get? i = some none → (fillnaCol c).get? i = some (colMedian c)) := by
  refine ⟨?_, ?_, ?_⟩
  · intro df d x y n c h hn hc
    obtain ⟨-, sel, hsel, hx⟩ := wsPrepare_inv df d x y h
    subst hx
    exact ⟨selectCols_lookup_fill df wsFeatureNames sel hsel n c hn hc,
      fun i hi => fillnaCol_get c i hi⟩
  · intro df d x y n c h hn hc
    obtain ⟨-, mg, sel, -, hsel, hx⟩ := recPrepare_inv df d x y h
    subst hx
    exact ⟨lookup_append_some _ _ n _
        (selectCols_lookup_fill df recFeatureNames sel hsel n c hn hc),
      fun i hi => fillnaCol_get c i hi⟩
  · intro df mask d x y n c hmask h hn hc
    obtain ⟨-, mask2, sel, hmask2, hsel, hx⟩ := wpPrepare_inv df d x y h
    have hmm : mask2 = mask := Option.some.inj (hmask2.symm.trans hmask)
    subst hmm
    subst hx
    exact ⟨selectCols_lookup_fill (df.filterRows mask2) wpFeatureNames sel hsel n c hn hc,
      fun i hi => fillnaCol_get c i hi⟩

/-- Witness for the amended C3 at `dfWsEx`: the missing `sleep_hours` cell
is imputed with the median of the whole column. -/
theorem c3_imputation_witness :
    wsPrepResEx.2.1.lookup "sleep_hours" = some (fillnaCol [some 7, none]) ∧
    (fillnaCol [some 7, none]).get? 1 = some (colMedian [some 7, none]) := by
  have h := c3_imputation_uses_pre_split_median.1 dfWsEx wsPrepResEx.1 wsPrepResEx.2.1
    wsPrepResEx.2.2 "sleep_hours" [some 7, none] rfl (by simp [wsFeatureNames]) rfl
  exact ⟨h.1, h.2 1 rfl⟩

/-- C8 counterexample: training on `dfRecEx`, whose only observed muscle
group is "chest", persists the fixed six-element list from `__init__`
("back" included), not the set of distinct observed values. -/
theorem c8_observed_categories_counterexample :
    recTrainAndSave (fun _ => 0) 0 dfRecEx "t" = some recArtifactEx ∧
    observedMuscleGroups dfRecEx = ["chest"] ∧
    "back" ∈ recArtifactEx.muscle_groups ∧
    "back" ∉ observedMuscleGroups dfRecEx ∧
    recArtifactEx.muscle_groups ≠ observedMuscleGroups dfRecEx :=
  ⟨rfl, rfl, by decide, by decide, by decide⟩

/-- C8 amended: the persisted recovery artifact stores, beside scaler
state, feature schema and timestamp, the fixed list of six muscle groups
hardcoded at construction — the same list for every training dataset,
equal to the observed distinct value set only when all six appear. -/
theorem c8_artifact_stores_fixed_categories (sqrtFn : ℚ → ℚ) (entropy : Nat)
    (df : DataFrame) (ts : String) (art : RecArtifact)
    (h : recTrainAndSave sqrtFn entropy df ts = some art) :
    art.muscle_groups = muscleGroupsInit ∧ art.trained_at = ts :=
  ⟨(recTrainAndSave_inv sqrtFn entropy df ts art h).2.1,
   (recTrainAndSave_inv sqrtFn entropy df ts art h).2.2.1⟩

/-- Witness for the amended C8 at `dfRecEx`. -/
theorem c8_artifact_stores_fixed_categories_witness :
    recArtifactEx.muscle_groups = muscleGroupsInit ∧ recArtifactEx.trained_at = "t" :=
  c8_artifact_stores_fixed_categories (fun _ => 0) 0 dfRecEx "t" recArtifactEx rfl

/-- C9: `prepare_data` of each of the three predictors leaves the caller's
dataframe unchanged — the returned dataframe state equals the input
(imputation is not in-place, filtering operates on a copy). -/
theorem c9_prepare_preserves_input (df : DataFrame) :
    (∀ d x y, wsPrepare df = some (d, x, y) → d = df) ∧
    (∀ d x y, recPrepare df = some (d, x, y) → d = df) ∧
    (∀ d x y, wpPrepare df = some (d, x, y) → d = df) :=
  ⟨fun d x y h => (wsPrepare_inv df d x y h).1,
   fun d x y h => (recPrepare_inv df d x y h).1,
   fun d x y h => (wpPrepare_inv df d x y h).1⟩

/-- Witness for C9 at the three concrete datasets. -/
theorem c9_prepare_preserves_input_witness :
    wsPrepResEx.1 = dfWsEx ∧ recPrepResEx.1 = dfRecEx ∧ wpPrepResEx.1 = dfWpEx :=
  ⟨(c9_prepare_preserves_input dfWsEx).1 wsPrepResEx.1 wsPrepResEx.2.1 wsPrepResEx.2.2 rfl,
   (c9_prepare_preserves_input dfRecEx).2.1 recPrepResEx.1 recPrepResEx.2.1 recPrepResEx.2.2 rfl,
   (c9_prepare_preserves_input dfWpEx).2.2 wpPrepResEx.1 wpPrepResEx.2.1 wpPrepResEx.2.2 rfl⟩

/-- C10: for every recovery training run, the persisted `feature_names`
field is exactly the four numeric names and excludes every muscle-group
indicator column, even though the scaler (and estimator) were fitted on
the numeric columns plus the indicator columns: the training matrix's
column names are `feature_names ++ indicator names` and the scaler state
covers them all. -/
theorem c10_persisted_feature_names (sqrtFn : ℚ → ℚ) (entropy : Nat)
    (df : DataFrame) (ts : String) (art : RecArtifact)
    (h : recTrainAndSave sqrtFn entropy df ts = some art) :
    art.feature_names =
      ["workout_volume", "workout_intensity", "sleep_quality", "nutrition_quality"] ∧
    ∀ (d : DataFrame) (x : List (String × List ℚ)) (y : Col) (mg : List String),
      recPrepare df = some (d, x, y) →
      df.getStrCol? "muscle_group" = some mg →
      x.map Prod.fst = art.feature_names ++ (getDummies mg "muscle").map Prod.fst ∧
      art.scaler.length = x.length ∧
      (mg ≠ [] → art.feature_names ≠ x.map Prod.fst) := by
  obtain ⟨hfn, -, -, hsc⟩ := recTrainAndSave_inv sqrtFn entropy df ts art h
  refine ⟨hfn, ?_⟩
  intro d x y mg hp hmg
  obtain ⟨-, mg2, sel, hmg2, hsel, hx⟩ := recPrepare_inv df d x y hp
  have hmm : mg2 = mg := Option.some.inj (hmg2.symm.trans hmg)
  subst hmm
  have hfst : x.map Prod.fst = recFeatureNames ++ (getDummies mg2 "muscle").map Prod.fst := by
    rw [hx, List.map_append]
    congr 1
    rw [List.map_map]
    have hcomp : (Prod.fst ∘ fun p : String × Col => (p.1, fillnaCol p.2)) = Prod.fst := rfl
    rw [hcomp]
    exact selectCols_map_fst df recFeatureNames sel hsel
  refine ⟨by rw [hfn]; exact hfst, hsc d x y hp, ?_⟩
  intro hmgne heq
  rcases mg2 with - | ⟨m, t⟩
  · exact hmgne rfl
  · have hpos := dedupKeepFirst_length_pos m t
    have hlen := congrArg List.length heq
    rw [hfst, hfn, List.length_append, List.length_map, getDummies_length] at hlen
    omega

/-- Witness for C10 at `dfRecEx`. -/
theorem c10_persisted_feature_names_witness :
    recArtifactEx.feature_names =
      ["workout_volume", "workout_intensity", "sleep_quality", "nutrition_quality"] ∧
    recPrepResEx.2.1.map Prod.fst =
      recArtifactEx.feature_names ++ (getDummies ["chest", "chest"] "muscle").map Prod.fst ∧
    recArtifactEx.scaler.length = recPrepResEx.2.1.length ∧
    recArtifactEx.feature_names ≠ recPrepResEx.2.1.map Prod.fst := by
  have h := c10_persisted_feature_names (fun _ => 0) 0 dfRecEx "t" recArtifactEx rfl
  have h2 := h.2 recPrepResEx.1 recPrepResEx.2.1 recPrepResEx.2.2 ["chest", "chest"] rfl rfl
  exact ⟨h.1, h2.1, h2.2.1, h2.2.2 (by simp)⟩

end FitTrack
